import Mathlib

/-!
Verification of the abuse-mitigation engine of the `express-raw` repository:
the `RateLimiter` class (sliding/fixed window admission, violation tracking,
auto-ban, janitor sweep, middleware gate) and the WebSocket connection
admission path of `WebSocketSupport`.

Modelling conventions:
* JS `Map` objects are modelled as association lists `List (String × α)`
  (`mapGet` / `mapSet` / `mapDelete`); `mapSet` updates in place, so maps
  built by the operations from an empty store have pairwise distinct keys.
* Timestamps and durations are natural numbers (milliseconds).  JS integer
  comparisons of the form `now - t < w` are rendered subtraction-free as
  `now < t + w` (equivalent over the integers), so that truncated `Nat`
  subtraction never diverges from the JS arithmetic.
* A route pattern `new RegExp(pattern).test(path)` is modelled as an
  abstract test function `String → Bool` paired with its limit.
* `Date.now()` is passed in explicitly as `now`.
-/

set_option autoImplicit false

namespace ExpressRaw

/-- First value stored under key `k`, like `Map.prototype.get`. -/
def mapGet {α : Type} (k : String) : List (String × α) → Option α
  | [] => none
  | (k', v) :: rest => if k' = k then some v else mapGet k rest

/-- Replace the entry for `k` in place, appending when absent, like
`Map.prototype.set` (JS maps keep the original insertion position). -/
def mapSet {α : Type} (k : String) (v : α) : List (String × α) → List (String × α)
  | [] => [(k, v)]
  | (k', v') :: rest => if k' = k then (k, v) :: rest else (k', v') :: mapSet k v rest

/-- Remove the entry for `k`, like `Map.prototype.delete`. -/
def mapDelete {α : Type} (k : String) : List (String × α) → List (String × α)
  | [] => []
  | (k', v') :: rest => if k' = k then rest else (k', v') :: mapDelete k rest

/-- Entry of `store.requests`: `{ count, firstRequest, requests }`. -/
structure WindowRecord where
  count : Nat
  firstRequest : Nat
  requests : List Nat
deriving DecidableEq

/-- Entry of `store.violations`: `{ count, timestamps }`. -/
structure ViolationRecord where
  count : Nat
  timestamps : List Nat
deriving DecidableEq

/-- Entry of `store.bans`: `{ timestamp, violations, expiresAt }`. -/
structure BanRecord where
  timestamp : Nat
  violations : Nat
  expiresAt : Nat
deriving DecidableEq

/-- The three maps initialised in the `RateLimiter` constructor. -/
structure Store where
  requests : List (String × WindowRecord)
  violations : List (String × ViolationRecord)
  bans : List (String × BanRecord)
deriving DecidableEq

/-- An incoming request, reduced to the fields the rate limiter reads.
`ip` is optional because `req.ip` may be absent (`undefined`). -/
structure Request where
  ip : Option String
  path : String
  method : String
deriving DecidableEq

/-- The `RateLimiter` configuration after constructor defaulting, reduced to
the fields the modelled operations read. -/
structure Config where
  windowMs : Nat
  maxRequests : Nat
  windowType : String
  routeLimits : List ((String → Bool) × Nat)
  methodLimits : List (String × Nat)
  whitelist : List String
  blacklist : List String
  autoBanEnabled : Bool
  maxViolations : Nat
  banDurationMs : Nat
  maxStoreSize : Nat
  skipOptions : Bool
  skip : Request → Bool

/-- Constructor defaults of `RateLimiter` (`config = {}`). -/
def defaultConfig : Config where
  windowMs := 60000
  maxRequests := 100
  windowType := "sliding"
  routeLimits := []
  methodLimits := []
  whitelist := []
  blacklist := []
  autoBanEnabled := false
  maxViolations := 5
  banDurationMs := 86400000
  maxStoreSize := 10000
  skipOptions := false
  skip := fun _ => false

/-- The identity component the default key generator produces:
`req => req.ip`, with an absent `ip` rendered as the empty string by
`Array.prototype.join`. -/
def renderIdent (req : Request) : String :=
  req.ip.getD ""

/-- `parts.join(':')`. -/
def joinParts : List String → String
  | [] => ""
  | [p] => p
  | p :: rest => p ++ ":" ++ joinParts rest

/-- `generateKey`: base identity, extended with `req.path` when `routeLimits`
is non-empty and with `req.method` when `methodLimits` is non-empty, joined
with `':'`. -/
def generateKey (cfg : Config) (req : Request) : String :=
  joinParts ([renderIdent req]
    ++ (if cfg.routeLimits.isEmpty then [] else [req.path])
    ++ (if cfg.methodLimits.isEmpty then [] else [req.method]))

/-- The `for … of Object.entries(routeLimits)` loop of `getRouteLimit`:
first pattern that tests true wins. -/
def routeLimitLookup (path : String) : List ((String → Bool) × Nat) → Option Nat
  | [] => none
  | (pat, l) :: rest => if pat path then some l else routeLimitLookup path rest

/-- `getRouteLimit`: limit of the first matching route pattern, falling back
to `maxRequests`. -/
def getRouteLimit (cfg : Config) (path : String) : Nat :=
  (routeLimitLookup path cfg.routeLimits).getD cfg.maxRequests

/-- `getMethodLimit`: `methodLimits[method] || maxRequests` (note `||` is JS
truthiness, so a configured limit of `0` also falls back). -/
def getMethodLimit (cfg : Config) (method : String) : Nat :=
  match mapGet method cfg.methodLimits with
  | some l => if l = 0 then cfg.maxRequests else l
  | none => cfg.maxRequests

/-- The limit `isRateLimited` compares against:
`Math.min(routeLimit, methodLimit)`. -/
def effectiveLimit (cfg : Config) (path method : String) : Nat :=
  min (getRouteLimit cfg path) (getMethodLimit cfg method)

/-- `banIP`: record a ban expiring `banDurationMs` after `now`
(`violations.get(key)?.count || 0` is read from the current store). -/
def banIP (cfg : Config) (store : Store) (key : String) (now : Nat) : Store :=
  let banData : BanRecord :=
    { timestamp := now
      violations := match mapGet key store.violations with
        | some v => v.count
        | none => 0
      expiresAt := now + cfg.banDurationMs }
  { store with bans := mapSet key banData store.bans }

/-- `handleViolation`: increment the violation count, append the timestamp,
and ban when `autoBan.enabled && count >= maxViolations`. -/
def handleViolation (cfg : Config) (store : Store) (key : String) (now : Nat) : Store :=
  let v := (mapGet key store.violations).getD ⟨0, []⟩
  let v' : ViolationRecord := { count := v.count + 1, timestamps := v.timestamps ++ [now] }
  let store' : Store := { store with violations := mapSet key v' store.violations }
  if cfg.autoBanEnabled = true ∧ cfg.maxViolations ≤ v'.count then
    banIP cfg store' key now
  else
    store'

/-- `isRateLimited`: update the window record for `key` (sliding: drop
timestamps with `now - t >= windowMs`; fixed: reset when the bucket rolled
over), append `now`, then compare the count against the effective limit,
recording a violation when exceeded.  Returns the decision and the updated
store. -/
def isRateLimited (cfg : Config) (store : Store) (key : String) (req : Request)
    (now : Nat) : Bool × Store :=
  let data := (mapGet key store.requests).getD { count := 0, firstRequest := now, requests := [] }
  let limit := effectiveLimit cfg req.path req.method
  let data' :=
    if cfg.windowType = "sliding" then
      let kept := data.requests.filter (fun t => decide (now < t + cfg.windowMs))
      { data with requests := kept, count := kept.length }
    else
      let windowStart := now / cfg.windowMs * cfg.windowMs
      if data.firstRequest < windowStart then
        { count := 0, firstRequest := now, requests := [] }
      else
        data
  let data'' : WindowRecord :=
    { data' with requests := data'.requests ++ [now], count := data'.count + 1 }
  let store' : Store := { store with requests := mapSet key data'' store.requests }
  if limit < data''.count then
    (true, handleViolation cfg store' key now)
  else
    (false, store')

/-- `isIPBanned`: lazy expiry — delete and return false when
`now > expiresAt`, otherwise the ban is active. -/
def isIPBanned (store : Store) (key : String) (now : Nat) : Bool × Store :=
  match mapGet key store.bans with
  | none => (false, store)
  | some ban =>
    if ban.expiresAt < now then
      (false, { store with bans := mapDelete key store.bans })
    else
      (true, store)

/-- Janitor step (a), on `store.requests`: delete entries with
`now - firstRequest > windowMs` (kept iff `now ≤ firstRequest + windowMs`). -/
def cleanupRequests (cfg : Config) (now : Nat)
    (reqs : List (String × WindowRecord)) : List (String × WindowRecord) :=
  reqs.filter (fun e => decide (now ≤ e.2.firstRequest + cfg.windowMs))

/-- Janitor step (b), on `store.bans`: delete entries with `now > expiresAt`. -/
def cleanupBans (now : Nat) (bans : List (String × BanRecord)) : List (String × BanRecord) :=
  bans.filter (fun e => decide (now ≤ e.2.expiresAt))

/-- Janitor step (c), per violation record: keep timestamps with
`now - t < windowMs * 2`; delete the record when none survive, else
recompute `count` from the surviving sequence. -/
def sweepViolation (cfg : Config) (now : Nat) (v : ViolationRecord) : Option ViolationRecord :=
  let ts := v.timestamps.filter (fun t => decide (now < t + cfg.windowMs * 2))
  if ts.isEmpty then none else some { count := ts.length, timestamps := ts }

/-- Janitor step (c) over the whole violations map. -/
def cleanupViolations (cfg : Config) (now : Nat)
    (vs : List (String × ViolationRecord)) : List (String × ViolationRecord) :=
  vs.filterMap (fun e => (sweepViolation cfg now e.2).map (fun v => (e.1, v)))

/-- Stable insertion of one entry into a list ordered by `firstRequest`
ascending (models the comparator `a.firstRequest - b.firstRequest`). -/
def insertByFirst (e : String × WindowRecord) :
    List (String × WindowRecord) → List (String × WindowRecord)
  | [] => [e]
  | x :: xs =>
    if e.2.firstRequest ≤ x.2.firstRequest then e :: x :: xs else x :: insertByFirst e xs

/-- Stable sort of the request entries by `firstRequest` ascending, as in
`Array.from(entries).sort(([, a], [, b]) => a.firstRequest - b.firstRequest)`. -/
def sortByFirstRequest : List (String × WindowRecord) → List (String × WindowRecord)
  | [] => []
  | x :: xs => insertByFirst x (sortByFirstRequest xs)

/-- Janitor step (d): when `size > maxStoreSize`, delete the
`Math.floor(maxStoreSize * 0.2)` entries with the earliest `firstRequest`
(the float product is rendered as `maxStoreSize * 2 / 10` in `Nat`). -/
def evictOldest (cfg : Config)
    (reqs : List (String × WindowRecord)) : List (String × WindowRecord) :=
  if cfg.maxStoreSize < reqs.length then
    let entriesToDelete := ((sortByFirstRequest reqs).take (cfg.maxStoreSize * 2 / 10)).map
      (fun e => e.1)
    entriesToDelete.foldl (fun acc k => mapDelete k acc) reqs
  else
    reqs

/-- One pass of the `startCleanup` interval body: steps (a)–(d) in source
order. -/
def cleanupSweep (cfg : Config) (store : Store) (now : Nat) : Store :=
  { requests := evictOldest cfg (cleanupRequests cfg now store.requests)
    violations := cleanupViolations cfg now store.violations
    bans := cleanupBans now store.bans }

/-- Terminal outcomes of the middleware for one request: `next()` is
`ALLOW`, `handleRateLimit` without the ban flag is `RATE_LIMITED`, and
`handleRateLimit` with the ban flag is `BANNED`. -/
inductive Outcome
  | ALLOW
  | RATE_LIMITED
  | BANNED
deriving DecidableEq

/-- The middleware closure, as a function from the pre-state to the decision
and the post-state: skip hooks, whitelist/blacklist on the generated key,
ban check, then window admission. -/
def middleware (cfg : Config) (store : Store) (req : Request) (now : Nat) :
    Outcome × Store :=
  if cfg.skip req then (Outcome.ALLOW, store)
  else if cfg.skipOptions = true ∧ req.method = "OPTIONS" then (Outcome.ALLOW, store)
  else
    let key := generateKey cfg req
    if key ∈ cfg.whitelist then (Outcome.ALLOW, store)
    else if key ∈ cfg.blacklist then (Outcome.RATE_LIMITED, store)
    else
      let bc := isIPBanned store key now
      if bc.1 then (Outcome.BANNED, bc.2)
      else
        let rl := isRateLimited cfg bc.2 key req now
        if rl.1 then (Outcome.RATE_LIMITED, rl.2) else (Outcome.ALLOW, rl.2)

/-- The effective limit as the specification words it, for comparison with
`effectiveLimit`: the minimum over the limits of ALL matching route patterns
together with the configured method limit; when neither applies, the global
`maxRequests` default. -/
def specEffectiveLimit (cfg : Config) (path method : String) : Nat :=
  let routeMatches := (cfg.routeLimits.filter (fun pl => pl.1 path)).map (fun pl => pl.2)
  let methodMatch : List Nat :=
    match mapGet method cfg.methodLimits with
    | some l => [l]
    | none => []
  match routeMatches ++ methodMatch with
  | [] => cfg.maxRequests
  | c :: cs => cs.foldl min c

/-! WebSocket connection admission (`WebSocketSupport`). -/

/-- `WebSocketSupport` configuration fields read by the connection path. -/
structure WSConfig where
  maxConnections : Nat
  rateLimitingEnabled : Bool
  maxConnectionsPerIP : Nat
  wsWindowMs : Nat
  maxMessages : Nat

/-- A `rateLimiters` entry: `{ count, resetTime }`. -/
structure WSLimiter where
  count : Nat
  resetTime : Nat
deriving DecidableEq

/-- WebSocket server state read by the connection path. -/
structure WSState where
  activeConnections : Nat
  rateLimiters : List (String × WSLimiter)
deriving DecidableEq

/-- `checkRateLimit(ip)`: create a zero-count limiter for a first-seen IP,
then report limited iff `limiter.count >= maxConnectionsPerIP`.  (The
`setTimeout` that later deletes the limiter is outside this synchronous
step.) -/
def checkRateLimit (cfg : WSConfig) (st : WSState) (ip : String) (now : Nat) :
    Bool × WSState :=
  let limiters :=
    match mapGet ip st.rateLimiters with
    | some _ => st.rateLimiters
    | none => mapSet ip { count := 0, resetTime := now + cfg.wsWindowMs } st.rateLimiters
  let limiter := (mapGet ip limiters).getD { count := 0, resetTime := now + cfg.wsWindowMs }
  (decide (cfg.maxConnectionsPerIP ≤ limiter.count), { st with rateLimiters := limiters })

/-- Outcome of the `wss.on('connection')` handler's guard sequence
(authentication is disabled by default and not modelled). -/
inductive WSDecision
  | accepted
  | rejectedMaxConnections
  | rejectedRateLimit
deriving DecidableEq

/-- The connection handler: max-connection check, then (when enabled) the
per-IP rate-limit check, then the stats increment on success. -/
def handleConnection (cfg : WSConfig) (st : WSState) (ip : String) (now : Nat) :
    WSDecision × WSState :=
  if cfg.maxConnections ≤ st.activeConnections then (WSDecision.rejectedMaxConnections, st)
  else if cfg.rateLimitingEnabled then
    let rc := checkRateLimit cfg st ip now
    if rc.1 then (WSDecision.rejectedRateLimit, rc.2)
    else (WSDecision.accepted, { rc.2 with activeConnections := rc.2.activeConnections + 1 })
  else (WSDecision.accepted, { st with activeConnections := st.activeConnections + 1 })

/-- The rate-limiting portion of `handleMessage`: the per-IP limiter count is
incremented (when a limiter exists) and the message is rejected when
`count > maxMessages`.  This is the only place `limiter.count` is ever
incremented. -/
def handleMessageRateLimit (cfg : WSConfig) (st : WSState) (ip : String) :
    Bool × WSState :=
  if cfg.rateLimitingEnabled then
    match mapGet ip st.rateLimiters with
    | some limiter =>
      let limiter' : WSLimiter := { limiter with count := limiter.count + 1 }
      (decide (cfg.maxMessages < limiter'.count),
        { st with rateLimiters := mapSet ip limiter' st.rateLimiters })
    | none => (false, st)
  else (false, st)

/-! Concrete configurations, stores and requests used by the witnesses and
counterexamples below. -/

/-- The empty store the constructor initialises. -/
def emptyStore : Store := { requests := [], violations := [], bans := [] }

/-- A plain GET request from IP `1.2.3.4`. -/
def reqW : Request := { ip := some "1.2.3.4", path := "/x", method := "GET" }

/-- Sliding config with a 100 ms window. -/
def cfgSlidingW : Config := { defaultConfig with windowMs := 100 }

/-- A store holding two prior timestamps for key `k`. -/
def stSlidingW : Store :=
  { requests := [("k", ⟨2, 0, [0, 50]⟩)]
    violations := []
    bans := [] }

/-- Two route patterns that both match every path, with different limits. -/
def cfgRouteOverlapW : Config :=
  { defaultConfig with routeLimits := [(fun _ => true, 50), (fun _ => true, 20)] }

/-- A config whose first route pattern matches only `/a`. -/
def cfgRouteFirstW : Config :=
  { defaultConfig with routeLimits := [(fun p => p == "/a", 7), (fun _ => true, 3)] }

/-- `maxStoreSize := 100` with a window long enough that no entry is idle. -/
def cfgStore100W : Config := { defaultConfig with maxStoreSize := 100, windowMs := 10000 }

/-- 150 distinct freshly inserted keys, `firstSeen` increasing. -/
def bigRequestsW : List (String × WindowRecord) :=
  (List.range 150).map (fun i => (Nat.repr i, ⟨1, i, [i]⟩))

/-- The 150-key store of the C3 scenario. -/
def store150W : Store :=
  { requests := bigRequestsW
    violations := []
    bans := [] }

/-- Small capacity config for the C3 witness. -/
def cfgStore10W : Config := { defaultConfig with maxStoreSize := 10, windowMs := 1000 }

/-- 11 distinct fresh keys for the C3 witness. -/
def store11W : Store :=
  { requests := (List.range 11).map (fun i => (Nat.repr i, ⟨1, i, [i]⟩))
    violations := []
    bans := [] }

/-- A key with an idle window record and a nonzero violation count. -/
def stViolW : Store :=
  { requests := [("k", ⟨1, 0, [0]⟩)]
    violations := [("k", ⟨1, [150]⟩)]
    bans := [] }

/-- A store holding one active ban for key `k`. -/
def stBanW : Store :=
  { requests := [("1.2.3.4", ⟨1, 0, [0]⟩)]
    violations := [("1.2.3.4", ⟨1, [0]⟩)]
    bans := [("1.2.3.4", ⟨0, 5, 1000⟩)] }

/-- Auto-ban on the first violation, 100 ms ban duration. -/
def cfgAutoBanW : Config :=
  { defaultConfig with autoBanEnabled := true
                       maxViolations := 1
                       banDurationMs := 100 }

/-- A store with one prior violation for key `k` at time 0. -/
def stOneViolW : Store :=
  { requests := []
    violations := [("k", ⟨1, [0]⟩)]
    bans := [] }

/-- A config with a scoped (route-limit) key space. -/
def cfgScopedW : Config := { defaultConfig with routeLimits := [(fun _ => true, 1)] }

/-- A scoped config whose whitelist and blacklist hold the bare identity. -/
def cfgScopedListsW : Config :=
  { defaultConfig with routeLimits := [(fun _ => true, 1)]
                       whitelist := ["1.2.3.4"]
                       blacklist := ["1.2.3.4"] }

/-- WebSocket config: at most 2 connections per IP. -/
def wsCfgW : WSConfig :=
  { maxConnections := 1000
    rateLimitingEnabled := true
    maxConnectionsPerIP := 2
    wsWindowMs := 60000
    maxMessages := 100 }

/-- Fresh WebSocket server state. -/
def ws0 : WSState := { activeConnections := 0, rateLimiters := [] }

/-! Helper lemmas about the map primitives. -/

theorem mapGet_mapSet_self {α : Type} (k : String) (v : α) (l : List (String × α)) :
    mapGet k (mapSet k v l) = some v := by
  induction l with
  | nil => simp [mapGet, mapSet]
  | cons e rest ih =>
    by_cases h : e.1 = k
    · simp [mapGet, mapSet, h]
    · simpa [mapGet, mapSet, h] using ih

theorem mapGet_eq_none_of_not_mem {α : Type} (k : String) (l : List (String × α))
    (h : k ∉ l.map Prod.fst) : mapGet k l = none := by
  induction l with
  | nil => rfl
  | cons e rest ih =>
    simp only [List.map_cons, List.mem_cons, not_or] at h
    obtain ⟨h1, h2⟩ := h
    have h1' : ¬ e.1 = k := fun he => h1 he.symm
    obtain ⟨k', v⟩ := e
    simp only [mapGet, if_neg h1']
    exact ih h2

theorem mapGet_mapDelete_mapSet {α : Type} (k : String) (v : α) (l : List (String × α))
    (hnd : (l.map Prod.fst).Nodup) :
    mapGet k (mapDelete k (mapSet k v l)) = none := by
  induction l with
  | nil => simp [mapGet, mapSet, mapDelete]
  | cons e rest ih =>
    simp only [List.map_cons, List.nodup_cons] at hnd
    by_cases h : e.1 = k
    · simp only [mapSet, if_pos h, mapDelete, if_pos rfl]
      exact mapGet_eq_none_of_not_mem k rest (h ▸ hnd.1)
    · have h' : ¬ k = e.1 := fun he => h he.symm
      obtain ⟨k', v'⟩ := e
      simp only [mapSet, if_neg h, mapDelete, if_neg h, mapGet, if_neg h]
      exact ih hnd.2

theorem mapGet_filter {α : Type} (k : String) (v : α) (p : String × α → Bool)
    (l : List (String × α)) (hget : mapGet k l = some v) (hp : p (k, v) = true) :
    mapGet k (l.filter p) = some v := by
  induction l with
  | nil => simp [mapGet] at hget
  | cons e rest ih =>
    by_cases h : e.1 = k
    · simp only [mapGet, if_pos h] at hget
      obtain ⟨k', v'⟩ := e
      cases h
      cases hget
      simp [List.filter_cons, hp, mapGet]
    · simp only [mapGet, if_neg h] at hget
      simp only [List.filter_cons]
      cases hpe : p e with
      | true =>
        obtain ⟨k', v'⟩ := e
        simp only [mapGet, if_neg h]
        exact ih hget
      | false => exact ih hget

theorem map_fst_mapDelete {α : Type} (k : String) (l : List (String × α)) :
    (mapDelete k l).map Prod.fst = (l.map Prod.fst).erase k := by
  induction l with
  | nil => rfl
  | cons e rest ih =>
    by_cases h : e.1 = k
    · simp [mapDelete, h, List.erase_cons]
    · simp [mapDelete, h, List.erase_cons, ih]

theorem length_mapDelete_of_mem {α : Type} (k : String) (l : List (String × α))
    (h : k ∈ l.map Prod.fst) : (mapDelete k l).length = l.length - 1 := by
  have := congrArg List.length (map_fst_mapDelete k l)
  simpa [List.length_erase_of_mem h] using this

/-! Frame lemmas: which store components each operation can touch. -/

theorem banIP_requests (cfg : Config) (s : Store) (k : String) (n : Nat) :
    (banIP cfg s k n).requests = s.requests := rfl

theorem banIP_violations (cfg : Config) (s : Store) (k : String) (n : Nat) :
    (banIP cfg s k n).violations = s.violations := rfl

theorem handleViolation_requests (cfg : Config) (s : Store) (k : String) (n : Nat) :
    (handleViolation cfg s k n).requests = s.requests := by
  unfold handleViolation
  dsimp only
  split
  · exact banIP_requests ..
  · rfl

theorem handleViolation_bans_of_lt (cfg : Config) (s : Store) (k : String) (n : Nat)
    (h : ¬(cfg.autoBanEnabled = true ∧
      cfg.maxViolations ≤ ((mapGet k s.violations).getD ⟨0, []⟩).count + 1)) :
    (handleViolation cfg s k n).bans = s.bans := by
  unfold handleViolation
  dsimp only
  split
  · next hc => exact absurd hc h
  · rfl

theorem isIPBanned_true_store (s : Store) (k : String) (n : Nat)
    (h : (isIPBanned s k n).1 = true) : (isIPBanned s k n).2 = s := by
  unfold isIPBanned at h ⊢
  cases hget : mapGet k s.bans with
  | none => simp [hget] at h
  | some ban =>
    simp only [hget] at h ⊢
    by_cases hlt : ban.expiresAt < n
    · simp [hlt] at h
    · simp [hlt]

/-! Claim C1. -/

/-- C1: after a sliding-window admission at time `now`, the stored count for
the key equals the number of previously recorded timestamps `t` with
`now - t < windowMs` plus one, and the stored timestamp sequence is exactly
the surviving previous timestamps with `now` appended (the record's
`firstRequest` is carried over, defaulting to `now` for a fresh key). -/
theorem sliding_admission_window_record (cfg : Config) (store : Store) (key : String)
    (req : Request) (now : Nat) (hs : cfg.windowType = "sliding") :
    mapGet key ((isRateLimited cfg store key req now).2).requests =
      some { count := (((mapGet key store.requests).getD
               ⟨0, now, []⟩).requests.filter (fun t => decide (now < t + cfg.windowMs))).length + 1
             firstRequest := ((mapGet key store.requests).getD ⟨0, now, []⟩).firstRequest
             requests := ((mapGet key store.requests).getD
               ⟨0, now, []⟩).requests.filter (fun t => decide (now < t + cfg.windowMs)) ++ [now] } := by
  unfold isRateLimited
  dsimp only
  rw [if_pos hs]
  split
  · rw [handleViolation_requests]
    exact mapGet_mapSet_self ..
  · exact mapGet_mapSet_self ..

/-- Witness for C1: key `k` with prior timestamps `[0, 50]`, `windowMs = 100`,
admission at `now = 120`: timestamp `0` ages out, `50` survives, and the
stored record becomes `⟨2, 0, [50, 120]⟩`. -/
theorem sliding_admission_window_record_witness :
    mapGet "k" ((isRateLimited cfgSlidingW stSlidingW "k" reqW 120).2).requests =
      some ⟨2, 0, [50, 120]⟩ := by
  have h := sliding_admission_window_record cfgSlidingW stSlidingW "k" reqW 120 rfl
  exact h.trans (by decide)

/-! Claim C2. -/

/-- `routeLimitLookup` returns the FIRST matching pattern's limit: patterns
before it that do not match are skipped, and patterns after it are never
consulted. -/
theorem routeLimitLookup_append (path : String) (pre post : List ((String → Bool) × Nat))
    (p : String → Bool) (l : Nat)
    (hpre : ∀ q ∈ pre, q.1 path = false) (hmatch : p path = true) :
    routeLimitLookup path (pre ++ (p, l) :: post) = some l := by
  induction pre with
  | nil => simp [routeLimitLookup, hmatch]
  | cons q rest ih =>
    have hq : q.1 path = false := hpre q (List.mem_cons_self q rest)
    obtain ⟨qp, ql⟩ := q
    simp only [List.cons_append, routeLimitLookup]
    simp only at hq
    rw [hq]
    simp only [Bool.false_eq_true, if_false]
    exact ih (fun q' hq' => hpre q' (List.mem_cons_of_mem _ hq'))

/-- C2 counterexample: two route patterns both match `/api/x` with limits 50
and 20; the limit used by the admission check is the first match's 50, not
the minimum over all matches (20) that the claim requires. -/
theorem effective_limit_not_min_over_matches :
    effectiveLimit cfgRouteOverlapW "/api/x" "GET" = 50 ∧
    specEffectiveLimit cfgRouteOverlapW "/api/x" "GET" = 20 ∧
    effectiveLimit cfgRouteOverlapW "/api/x" "GET" ≠
      specEffectiveLimit cfgRouteOverlapW "/api/x" "GET" :=
  ⟨rfl, rfl, by decide⟩

/-- C2 amended: the effective limit is the minimum of the FIRST matching
route pattern's limit (patterns are scanned in configuration order and the
scan stops at the first match; `maxRequests` when none matches) and the
method limit — not the minimum over all matching patterns. -/
theorem effective_limit_first_match (cfg : Config) (path method : String)
    (pre post : List ((String → Bool) × Nat)) (p : String → Bool) (l : Nat)
    (hsplit : cfg.routeLimits = pre ++ (p, l) :: post)
    (hpre : ∀ q ∈ pre, q.1 path = false) (hmatch : p path = true) :
    effectiveLimit cfg path method = min l (getMethodLimit cfg method) := by
  unfold effectiveLimit getRouteLimit
  rw [hsplit, routeLimitLookup_append path pre post p l hpre hmatch]
  rfl

/-- Witness for C2 amended: the first pattern matches only `/a`, the second
matches everything with limit 3; for path `/b` the effective limit is 3. -/
theorem effective_limit_first_match_witness :
    effectiveLimit cfgRouteFirstW "/b" "GET" = 3 := by
  have h := effective_limit_first_match cfgRouteFirstW "/b" "GET"
    [(fun p => p == "/a", 7)] [] (fun _ => true) 3 rfl
    (by
      intro q hq
      rw [List.mem_singleton] at hq
      subst hq
      rfl)
    rfl
  exact h.trans (by decide)

/-! Claim C3. -/

theorem insertByFirst_perm (e : String × WindowRecord) (l : List (String × WindowRecord)) :
    List.Perm (insertByFirst e l) (e :: l) := by
  induction l with
  | nil => simp [insertByFirst]
  | cons x xs ih =>
    unfold insertByFirst
    split
    · exact List.Perm.refl _
    · exact List.Perm.trans (List.Perm.cons x ih) (List.Perm.swap e x xs)

theorem sortByFirstRequest_perm (l : List (String × WindowRecord)) :
    List.Perm (sortByFirstRequest l) l := by
  induction l with
  | nil => exact List.Perm.refl _
  | cons x xs ih =>
    exact List.Perm.trans (insertByFirst_perm x (sortByFirstRequest xs)) (List.Perm.cons x ih)

/-- Deleting a duplicate-free batch of present keys removes exactly one entry
per key. -/
theorem foldl_mapDelete_length (ks : List String) (l : List (String × WindowRecord))
    (hnd : (l.map Prod.fst).Nodup) (hks : ks.Nodup)
    (hmem : ∀ k ∈ ks, k ∈ l.map Prod.fst) :
    (ks.foldl (fun acc k => mapDelete k acc) l).length = l.length - ks.length := by
  induction ks generalizing l with
  | nil => simp
  | cons k ks ih =>
    simp only [List.foldl_cons]
    have hkmem : k ∈ l.map Prod.fst := hmem k (List.mem_cons_self k ks)
    have hnd' : ((mapDelete k l).map Prod.fst).Nodup := by
      rw [map_fst_mapDelete]
      exact hnd.erase k
    have hcons := List.nodup_cons.mp hks
    have hmem' : ∀ k' ∈ ks, k' ∈ (mapDelete k l).map Prod.fst := by
      intro k' hk'
      rw [map_fst_mapDelete]
      have hne : k' ≠ k := fun he => hcons.1 (he ▸ hk')
      exact (List.mem_erase_of_ne hne).mpr (hmem k' (List.mem_cons_of_mem _ hk'))
    rw [ih (mapDelete k l) hnd' hcons.2 hmem', length_mapDelete_of_mem k l hkmem]
    have h1 : 1 ≤ l.length := by
      rcases l with _ | _
      · simp at hkmem
      · simp
    simp only [List.length_cons]
    omega

/-- C3 counterexample: with `maxStoreSize = 100`, a store of 150 distinct
fresh keys is left at 130 entries by one Janitor sweep — the sweep deletes
only `floor(0.2 * maxStoreSize) = 20` entries, so the store is NOT reduced
to at most `maxStoreSize`. -/
theorem janitor_sweep_leaves_130 :
    (cleanupSweep cfgStore100W store150W 150).requests.length = 130 ∧
    ¬ (cleanupSweep cfgStore100W store150W 150).requests.length ≤ 100 := by
  constructor
  · set_option maxRecDepth 100000 in decide
  · set_option maxRecDepth 100000 in decide

/-- C3 amended: when the request store exceeds `maxStoreSize`, one Janitor
sweep deletes exactly `floor(0.2 * maxStoreSize)` entries (the ones with the
earliest `firstRequest`), not enough to reduce the store to `maxStoreSize`
or to 80% of capacity in general (stated for stores with pairwise distinct,
non-idle keys, so that only capacity-pressure eviction fires). -/
theorem janitor_capacity_eviction_size (cfg : Config) (store : Store) (now : Nat)
    (hfresh : ∀ e ∈ store.requests, now ≤ e.2.firstRequest + cfg.windowMs)
    (hnd : (store.requests.map Prod.fst).Nodup)
    (hover : cfg.maxStoreSize < store.requests.length) :
    (cleanupSweep cfg store now).requests.length =
      store.requests.length - cfg.maxStoreSize * 2 / 10 := by
  have hclean : cleanupRequests cfg now store.requests = store.requests := by
    apply List.filter_eq_self.mpr
    intro e he
    exact decide_eq_true (hfresh e he)
  show (evictOldest cfg (cleanupRequests cfg now store.requests)).length = _
  rw [hclean]
  unfold evictOldest
  rw [if_pos hover]
  dsimp only
  have hperm := sortByFirstRequest_perm store.requests
  have hpermfst : List.Perm ((sortByFirstRequest store.requests).map Prod.fst)
      (store.requests.map Prod.fst) := hperm.map Prod.fst
  have hn : cfg.maxStoreSize * 2 / 10 ≤ cfg.maxStoreSize := by omega
  have hksnd : ((((sortByFirstRequest store.requests).take
      (cfg.maxStoreSize * 2 / 10)).map (fun e => e.1))).Nodup := by
    rw [List.map_take]
    exact (List.take_sublist _ _).nodup (hpermfst.nodup_iff.mpr hnd)
  have hksmem : ∀ k ∈ ((sortByFirstRequest store.requests).take
      (cfg.maxStoreSize * 2 / 10)).map (fun e => e.1), k ∈ store.requests.map Prod.fst := by
    intro k hk
    rw [List.map_take] at hk
    exact hpermfst.mem_iff.mp (List.mem_of_mem_take hk)
  rw [foldl_mapDelete_length _ store.requests hnd hksnd hksmem]
  have hlen : (((sortByFirstRequest store.requests).take
      (cfg.maxStoreSize * 2 / 10)).map (fun e => e.1)).length = cfg.maxStoreSize * 2 / 10 := by
    rw [List.map_take, List.length_take, List.length_map, hperm.length_eq]
    exact min_eq_left (le_of_lt (lt_of_le_of_lt hn hover))
  rw [hlen]

/-- Witness for C3 amended: 11 distinct fresh keys with `maxStoreSize = 10`:
one sweep deletes `floor(0.2 * 10) = 2` entries, leaving 9. -/
theorem janitor_capacity_eviction_size_witness :
    (cleanupSweep cfgStore10W store11W 5).requests.length = 9 := by
  have h := janitor_capacity_eviction_size cfgStore10W store11W 5
    (by decide) (by decide) (by decide)
  exact h.trans (by decide)

/-! Claim C4. -/

/-- C4 counterexample: key `k` has a violation record with nonzero count 1,
yet one Janitor sweep at `now = 201` (window 100 ms) deletes its
WindowRecord — eviction gives no protection to keys with violations. -/
theorem janitor_evicts_despite_violations :
    ((mapGet "k" stViolW.violations).getD ⟨0, []⟩).count = 1 ∧
    mapGet "k" (cleanupSweep cfgSlidingW stViolW 201).requests = none := by
  decide

/-- C4 amended: a Janitor sweep never deletes a BanRecord whose `expiresAt`
has not passed; but the request-store part of the sweep is entirely
independent of the violations map, so a nonzero violation count never
protects a WindowRecord from idle or capacity eviction. -/
theorem janitor_ban_preserved_and_requests_independent (cfg : Config) (store : Store)
    (now : Nat) (key : String) (ban : BanRecord)
    (hget : mapGet key store.bans = some ban) (hactive : now ≤ ban.expiresAt) :
    mapGet key (cleanupSweep cfg store now).bans = some ban ∧
    ∀ vs, (cleanupSweep cfg { store with violations := vs } now).requests =
      (cleanupSweep cfg store now).requests := by
  constructor
  · exact mapGet_filter key ban _ store.bans hget (decide_eq_true hactive)
  · intro vs
    rfl

/-- Witness for C4 amended: the ban `⟨0, 5, 1000⟩` for `1.2.3.4` survives a
sweep at `now = 500`, and wiping the violations map does not change which
WindowRecords the sweep keeps. -/
theorem janitor_ban_preserved_witness :
    mapGet "1.2.3.4" (cleanupSweep defaultConfig stBanW 500).bans = some ⟨0, 5, 1000⟩ ∧
    (cleanupSweep defaultConfig { stBanW with violations := [] } 500).requests =
      (cleanupSweep defaultConfig stBanW 500).requests := by
  have h := janitor_ban_preserved_and_requests_independent defaultConfig stBanW 500
    "1.2.3.4" ⟨0, 5, 1000⟩ (by decide) (by decide)
  exact ⟨h.1, h.2 []⟩

/-! Claim C5. -/

/-- C5 counterexample: with `windowMs = 100` and a prior violation at time 0,
`handleViolation` at `now = 1000` stores `⟨2, [0, 1000]⟩`: the timestamp 0
is older than `2 * windowMs` (second conjunct), so timestamps are NOT pruned
before the count is used, and the count compared to the ban threshold (2)
includes the stale entry. -/
theorem record_violation_no_pruning :
    mapGet "k" (handleViolation cfgSlidingW stOneViolW "k" 1000).violations =
      some ⟨2, [0, 1000]⟩ ∧
    ¬ (1000 < 0 + cfgSlidingW.windowMs * 2) := by
  decide

/-- C5 amended: `handleViolation` appends the timestamp and increments the
count with NO pruning (so `count = len(timestamps)` is preserved, but stale
timestamps survive and are counted against the ban threshold); pruning to
the `2 * windowMs` horizon happens only in the Janitor sweep, whose surviving
records satisfy `count = len(timestamps)` with no stale timestamp. -/
theorem violation_record_invariant (cfg : Config) (store : Store) (key : String) (now : Nat) :
    mapGet key (handleViolation cfg store key now).violations =
      some { count := ((mapGet key store.violations).getD ⟨0, []⟩).count + 1
             timestamps := ((mapGet key store.violations).getD ⟨0, []⟩).timestamps ++ [now] } ∧
    ∀ k' v', (k', v') ∈ cleanupViolations cfg now store.violations →
      v'.count = v'.timestamps.length ∧ ∀ t ∈ v'.timestamps, now < t + cfg.windowMs * 2 := by
  constructor
  · unfold handleViolation
    dsimp only
    split
    · rw [banIP_violations]
      exact mapGet_mapSet_self ..
    · exact mapGet_mapSet_self ..
  · intro k' v' hmem
    unfold cleanupViolations at hmem
    rw [List.mem_filterMap] at hmem
    obtain ⟨e, he, hsome⟩ := hmem
    unfold sweepViolation at hsome
    dsimp only at hsome
    split at hsome
    · simp at hsome
    · simp only [Option.map_some', Option.some.injEq, Prod.mk.injEq] at hsome
      obtain ⟨hk, hv⟩ := hsome
      subst hv
      refine ⟨rfl, ?_⟩
      intro t ht
      dsimp only at ht
      have hpt := List.of_mem_filter ht
      exact of_decide_eq_true hpt

/-- Witness for C5 amended: recording a violation for `k` at 1000 on top of
`⟨1, [0]⟩` yields `⟨2, [0, 1000]⟩`; and the sweep-surviving record
`⟨1, [150]⟩` at `now = 201` satisfies `count = len(timestamps)`. -/
theorem violation_record_invariant_witness :
    mapGet "k" (handleViolation cfgSlidingW stOneViolW "k" 1000).violations =
      some ⟨2, [0, 1000]⟩ ∧
    (⟨1, [150]⟩ : ViolationRecord).count = ([150] : List Nat).length := by
  have h := violation_record_invariant cfgSlidingW stOneViolW "k" 1000
  have h2 := violation_record_invariant cfgSlidingW stViolW "k" 201
  refine ⟨h.1.trans (by decide), ?_⟩
  exact (h2.2 "k" ⟨1, [150]⟩ (by decide)).1

/-! Claim C6. -/

/-- C6: when a key's violation count reaches `autoBan.maxViolations` (with
auto-ban enabled), the ban created by the triggering event expires exactly
`banDurationMs` after it; `isIPBanned` then reports banned for every lookup
time up to and including `expiresAt`, and not-banned for any strictly later
lookup, deleting the ban record on that first expired lookup (stated for
stores whose ban map has duplicate-free keys — the JS `Map` invariant). -/
theorem autoban_exact_duration (cfg : Config) (store : Store) (key : String) (now : Nat)
    (hen : cfg.autoBanEnabled = true)
    (hnd : (store.bans.map Prod.fst).Nodup)
    (hreach : cfg.maxViolations ≤ ((mapGet key store.violations).getD ⟨0, []⟩).count + 1) :
    mapGet key (handleViolation cfg store key now).bans =
      some { timestamp := now
             violations := ((mapGet key store.violations).getD ⟨0, []⟩).count + 1
             expiresAt := now + cfg.banDurationMs } ∧
    ∀ t, ((isIPBanned (handleViolation cfg store key now) key t).1 =
        decide (t ≤ now + cfg.banDurationMs)) ∧
      (now + cfg.banDurationMs < t →
        mapGet key ((isIPBanned (handleViolation cfg store key now) key t).2).bans = none) := by
  have hbans : (handleViolation cfg store key now).bans =
      mapSet key { timestamp := now
                   violations := ((mapGet key store.violations).getD ⟨0, []⟩).count + 1
                   expiresAt := now + cfg.banDurationMs } store.bans := by
    unfold handleViolation
    dsimp only
    rw [if_pos ⟨hen, hreach⟩]
    unfold banIP
    dsimp only
    rw [mapGet_mapSet_self]
  refine ⟨?_, ?_⟩
  · rw [hbans]
    exact mapGet_mapSet_self ..
  · intro t
    unfold isIPBanned
    rw [hbans, mapGet_mapSet_self]
    dsimp only
    by_cases hlt : now + cfg.banDurationMs < t
    · rw [if_pos hlt]
      refine ⟨?_, fun _ => ?_⟩
      · exact (decide_eq_false (by omega)).symm
      · exact mapGet_mapDelete_mapSet key _ store.bans hnd
    · rw [if_neg hlt]
      refine ⟨?_, fun hc => absurd hc hlt⟩
      exact (decide_eq_true (by omega)).symm

/-- Witness for C6: empty store, threshold 1, ban duration 100: the
violation at `now = 10` creates a ban `⟨10, 1, 110⟩`; lookups at 110 and 111
fall on each side of the expiry. -/
theorem autoban_exact_duration_witness :
    mapGet "k" (handleViolation cfgAutoBanW emptyStore "k" 10).bans = some ⟨10, 1, 110⟩ ∧
    (isIPBanned (handleViolation cfgAutoBanW emptyStore "k" 10) "k" 110).1 = true ∧
    (isIPBanned (handleViolation cfgAutoBanW emptyStore "k" 10) "k" 111).1 = false := by
  have h := autoban_exact_duration cfgAutoBanW emptyStore "k" 10 rfl (by decide) (by decide)
  refine ⟨h.1.trans (by decide), ?_, ?_⟩
  · exact ((h.2 110).1).trans (by decide)
  · exact ((h.2 111).1).trans (by decide)

/-! Claim C7. -/

/-- C7: a request whose key is banned when the gate reaches the ban check
(it is not skipped, not an OPTIONS bypass, and its key is on neither the
whitelist nor the blacklist — the gate steps that precede the ban check)
gets outcome BANNED, and neither the request-count store nor the violation
store changes: no window counter is incremented and no violation recorded. -/
theorem banned_request_no_counting (cfg : Config) (store : Store) (req : Request) (now : Nat)
    (hskip : cfg.skip req = false)
    (hopt : ¬ (cfg.skipOptions = true ∧ req.method = "OPTIONS"))
    (hwl : generateKey cfg req ∉ cfg.whitelist)
    (hbl : generateKey cfg req ∉ cfg.blacklist)
    (hban : (isIPBanned store (generateKey cfg req) now).1 = true) :
    (middleware cfg store req now).1 = Outcome.BANNED ∧
    (middleware cfg store req now).2.requests = store.requests ∧
    (middleware cfg store req now).2.violations = store.violations := by
  have hst := isIPBanned_true_store store (generateKey cfg req) now hban
  have h1 : ¬ (cfg.skip req = true) := by
    rw [hskip]
    exact Bool.false_ne_true
  unfold middleware
  dsimp only
  rw [if_neg h1, if_neg hopt, if_neg hwl, if_neg hbl, if_pos hban, hst]
  exact ⟨rfl, rfl, rfl⟩

/-- Witness for C7: `1.2.3.4` is banned until 1000; its request at `now=500`
is BANNED and the request/violation maps are untouched. -/
theorem banned_request_no_counting_witness :
    (middleware defaultConfig stBanW reqW 500).1 = Outcome.BANNED ∧
    (middleware defaultConfig stBanW reqW 500).2.requests = stBanW.requests := by
  have h := banned_request_no_counting defaultConfig stBanW reqW 500 rfl
    (by decide) (by decide) (by decide) (by decide)
  exact ⟨h.1, h.2.1⟩

/-! Claim C8. -/

/-- Shape of the generated key in the four scoping configurations, and the
rendering of an unresolved identity. -/
theorem generateKey_eq_cases (cfg : Config) (req : Request) :
    (cfg.routeLimits = [] → cfg.methodLimits = [] →
      generateKey cfg req = renderIdent req) ∧
    (cfg.routeLimits ≠ [] → cfg.methodLimits = [] →
      generateKey cfg req = renderIdent req ++ ":" ++ req.path) ∧
    (cfg.routeLimits = [] → cfg.methodLimits ≠ [] →
      generateKey cfg req = renderIdent req ++ ":" ++ req.method) ∧
    (cfg.routeLimits ≠ [] → cfg.methodLimits ≠ [] →
      generateKey cfg req = renderIdent req ++ ":" ++ (req.path ++ ":" ++ req.method)) ∧
    (req.ip = none → renderIdent req = "") := by
  have hre : ∀ (l : List ((String → Bool) × Nat)), l ≠ [] → l.isEmpty = false := by
    intro l hl
    cases l with
    | nil => exact absurd rfl hl
    | cons a t => rfl
  have hme : ∀ (l : List (String × Nat)), l ≠ [] → l.isEmpty = false := by
    intro l hl
    cases l with
    | nil => exact absurd rfl hl
    | cons a t => rfl
  refine ⟨?_, ?_, ?_, ?_, ?_⟩
  · intro hr hm
    simp [generateKey, hr, hm, joinParts]
  · intro hr hm
    simp [generateKey, hre _ hr, hm, joinParts]
  · intro hr hm
    simp [generateKey, hr, hme _ hm, joinParts]
  · intro hr hm
    simp [generateKey, hre _ hr, hme _ hm, joinParts]
  · intro hip
    simp [renderIdent, hip]

/-- Appending the delimiter and a suffix always changes the string, so a
scoped key never equals the bare identity. -/
theorem append_colon_ne (b x : String) : b ++ ":" ++ x ≠ b := by
  intro heq
  have hlen := congrArg String.length heq
  rw [String.length_append, String.length_append] at hlen
  have hone : (":" : String).length = 1 := rfl
  rw [hone] at hlen
  omega

/-- C8 counterexample: with route limits configured, identity `a:b` with
path `c` and identity `a` with path `b:c` generate the SAME key even though
the identities differ (the `':'` delimiter does occur inside components);
and an unresolved identity yields the key `""`, not `"unknown"`. -/
theorem generate_key_collision_and_no_unknown :
    generateKey cfgScopedW ⟨some "a:b", "c", "GET"⟩ =
      generateKey cfgScopedW ⟨some "a", "b:c", "GET"⟩ ∧
    (⟨some "a:b", "c", "GET"⟩ : Request).ip ≠ (⟨some "a", "b:c", "GET"⟩ : Request).ip ∧
    generateKey defaultConfig ⟨none, "/x", "GET"⟩ ≠ "unknown" := by
  decide

/-- C8 amended: key resolution is a total function of the request: the key
is the rendered identity (the empty string for an unresolved identity —
there is no `"unknown"` fallback), extended with `':' + path` when route
limits are configured and `':' + method` when method limits are configured;
because `':'` may occur inside the identity itself, the composite keys are
not collision-free across requests that differ in identity. -/
theorem generate_key_shape (cfg : Config) (req : Request) :
    (cfg.routeLimits = [] → cfg.methodLimits = [] →
      generateKey cfg req = renderIdent req) ∧
    (cfg.routeLimits ≠ [] → cfg.methodLimits = [] →
      generateKey cfg req = renderIdent req ++ ":" ++ req.path) ∧
    (cfg.routeLimits = [] → cfg.methodLimits ≠ [] →
      generateKey cfg req = renderIdent req ++ ":" ++ req.method) ∧
    (cfg.routeLimits ≠ [] → cfg.methodLimits ≠ [] →
      generateKey cfg req = renderIdent req ++ ":" ++ (req.path ++ ":" ++ req.method)) ∧
    (req.ip = none → renderIdent req = "") :=
  generateKey_eq_cases cfg req

/-- Witness for C8 amended: with route limits configured, the key of
`1.2.3.4` requesting `/x` is `1.2.3.4:/x`. -/
theorem generate_key_shape_witness :
    generateKey cfgScopedW reqW = "1.2.3.4:/x" := by
  have h := generate_key_shape cfgScopedW reqW
  exact (h.2.1 (List.cons_ne_nil _ _) rfl).trans (by decide)

/-! Claim C9. -/

/-- C9: the code evaluated at the claim's scenario: `maxConnectionsPerIP = 2`
and three successive connection attempts from `1.2.3.4` with no messages
sent.  All three are accepted — `checkRateLimit` only reads the per-IP
counter, which is incremented exclusively by the message handler, so it is
still 0 after two accepted connections and the claimed connect-time cap
never fires. -/
theorem ws_third_connection_still_accepted :
    (handleConnection wsCfgW (handleConnection wsCfgW
        (handleConnection wsCfgW ws0 "1.2.3.4" 0).2 "1.2.3.4" 1).2 "1.2.3.4" 2).1 =
      WSDecision.accepted ∧
    ((mapGet "1.2.3.4" (handleConnection wsCfgW (handleConnection wsCfgW
        (handleConnection wsCfgW ws0 "1.2.3.4" 0).2 "1.2.3.4" 1).2 "1.2.3.4" 2).2.rateLimiters).getD
      ⟨0, 0⟩).count = 0 := by
  decide

/-! Claim C10. -/

/-- C10: when route- or method-scoped limits are configured, the whitelist
and blacklist are tested against the composite key, which never equals the
bare identity; consequently, list entries holding only the bare identity
match no request — the middleware behaves exactly as it would with empty
lists. -/
theorem scoped_lists_never_match_bare_identity (cfg : Config) (req : Request)
    (hscoped : cfg.routeLimits ≠ [] ∨ cfg.methodLimits ≠ []) :
    generateKey cfg req ≠ renderIdent req ∧
    ∀ store now, cfg.whitelist = [renderIdent req] → cfg.blacklist = [renderIdent req] →
      middleware cfg store req now =
        middleware { cfg with whitelist := [], blacklist := [] } store req now := by
  have hcases := generateKey_eq_cases cfg req
  have hne : generateKey cfg req ≠ renderIdent req := by
    rcases hscoped with hr | hm
    · by_cases hm' : cfg.methodLimits = []
      · rw [hcases.2.1 hr hm']
        exact append_colon_ne _ _
      · rw [hcases.2.2.2.1 hr hm']
        exact append_colon_ne _ _
    · by_cases hr' : cfg.routeLimits = []
      · rw [hcases.2.2.1 hr' hm]
        exact append_colon_ne _ _
      · rw [hcases.2.2.2.1 hr' hm]
        exact append_colon_ne _ _
  refine ⟨hne, ?_⟩
  intro store now hwl hbl
  have hmem : ¬ (generateKey cfg req ∈ [renderIdent req]) := by
    rw [List.mem_singleton]
    exact hne
  have hkey : generateKey
      { cfg with
        whitelist := ([] : List String)
        blacklist := ([] : List String) } req = generateKey cfg req := rfl
  unfold middleware
  dsimp only
  rw [hwl, hbl, hkey, if_neg hmem, if_neg hmem,
    if_neg (List.not_mem_nil (generateKey cfg req)),
    if_neg (List.not_mem_nil (generateKey cfg req))]
  rfl

/-- Witness for C10: with a scoped config whose whitelist and blacklist both
hold the bare identity `1.2.3.4`, the key differs from the identity and the
middleware decision equals the empty-lists decision. -/
theorem scoped_lists_never_match_bare_identity_witness :
    generateKey cfgScopedListsW reqW ≠ renderIdent reqW ∧
    middleware cfgScopedListsW emptyStore reqW 0 =
      middleware { cfgScopedListsW with whitelist := [], blacklist := [] } emptyStore reqW 0 := by
  have h := scoped_lists_never_match_bare_identity cfgScopedListsW reqW
    (Or.inl (List.cons_ne_nil _ _))
  exact ⟨h.1, h.2 emptyStore 0 rfl rfl⟩

end ExpressRaw
